import Mathlib

/-!
Shallow embedding of the yacut short-link service core
(`src/yacut/models.py`, `src/yacut/views.py`, `src/yacut/api_views.py`,
`src/yacut/constants.py`, `src/yacut/yandex_cloud.py`).

The persisted mapping store is modelled as an association list from short
codes to originals; the database's unique index on `short` is modelled by
`tryCommit`, which refuses an insert exactly when the key is present
(SQLAlchemy's `IntegrityError` path in `URLMap._try_commit`).  Concurrent
interference is modelled by letting the store snapshot seen at each commit
attempt differ from the snapshot seen at the earlier pre-check
(`storePre` vs `storeCommit`, and a snapshot stream `stores` for the
retry loop).  Randomness (`secrets.choice`, `uuid.uuid4().hex`) is
modelled by explicit draw oracles passed as parameters.
-/

namespace Yacut

/-! ## constants.py -/

def SHORT_AUTO_GENERATE_LENGTH : Nat := 6

def MAX_LENGHT_SHORT_LINK : Nat := 16

def MAX_TRIES : Nat := 100

def RESERVED_SHORTS : List String := ["files"]

/-- A character admitted by the class `[A-Za-z0-9]`. -/
def isShortChar (c : Char) : Bool :=
  ('A' ≤ c && c ≤ 'Z') || ('a' ≤ c && c ≤ 'z') || ('0' ≤ c && c ≤ '9')

/-- Full match of `^[A-Za-z0-9]{1,maxLen}$` against `s`. -/
def shortFullmatch (maxLen : Nat) (s : String) : Bool :=
  decide (1 ≤ s.length) && decide (s.length ≤ maxLen) && s.toList.all isShortChar

/-- `constants.SHORT_RE`: compiled from `^[A-Za-z0-9]{1,6}$`. -/
def SHORT_RE_fullmatch (s : String) : Bool := shortFullmatch 6 s

/-- `api_views.SHORT_RE`: compiled from `^[A-Za-z0-9]{1,16}$`. -/
def API_SHORT_RE_fullmatch (s : String) : Bool := shortFullmatch 16 s

/-! ## Python string primitives

The codes and reserved words of this service are drawn from
`[A-Za-z0-9]`, so `str.lower`, `str.strip` and `str.startswith` are
embedded with their ASCII semantics, by structural recursion over the
character list (which the kernel evaluates). -/

/-- ASCII case-folding of one character, as `str.lower` acts on it. -/
def charLower (c : Char) : Char :=
  if 'A' ≤ c && c ≤ 'Z' then Char.ofNat (c.toNat + 32) else c

/-- `str.lower()`. -/
def pyLower (s : String) : String := String.mk (s.toList.map charLower)

/-- `str.strip()`: drop whitespace from both ends. -/
def pyStrip (s : String) : String :=
  String.mk
    (((s.toList.dropWhile Char.isWhitespace).reverse.dropWhile
        Char.isWhitespace).reverse)

/-- `str.startswith(pre)`. -/
def pyStartswith (s pre : String) : Bool :=
  pre.toList.isPrefixOf s.toList

/-! ## The mapping store -/

/-- The persisted mapping store: pairs `(short, original)`. -/
abbrev Store := List (String × String)

/-- `URLMap.query.filter_by(short=k).first()`: exact-match lookup. -/
def storeLookup (s : Store) (k : String) : Option String :=
  (s.find? (fun e => e.1 == k)).map (fun e => e.2)

/-- `URLMap._is_taken` for a not-yet-persisted object (no id to exclude). -/
def isTaken (s : Store) (k : String) : Bool := (storeLookup s k).isSome

/-- `URLMap._try_commit` for an insert of `(k, v)`: the unique index on
`short` makes the commit fail (`IntegrityError`, rolled back) exactly when
`k` is already present; on success the new row is in the store. -/
def tryCommit (s : Store) (k v : String) : Option Store :=
  if isTaken s k then none else some ((k, v) :: s)

/-! ## models.py : URLMap -/

/-- `string.ascii_letters + string.digits`: the module-level alphabet. -/
def ALPHABET : List Char :=
  "abcdefghijklmnopqrstuvwxyzABCDEFGHIJKLMNOPQRSTUVWXYZ0123456789".toList

/-- `URLMap._random_short(length, alphabet=ALPHABET)`.  The body is
`"".join(choice(ALPHABET) for _ in range(length))`: it indexes the
module-level `ALPHABET`, not its `alphabet` argument.  `cd` is the oracle
for the successive `secrets.choice` draws. -/
def _random_short (cd : Nat → Fin 62) (length : Nat)
    (alphabet : List Char := ALPHABET) : String :=
  String.mk ((List.range length).map (fun i => ALPHABET.getD (cd i).val 'a'))

/-- `URLMap.generate_unique_short(length=SHORT_AUTO_GENERATE_LENGTH,
max_tries=MAX_TRIES)`: its body is a single `cls._random_short(length)`. -/
def generate_unique_short (length : Nat := SHORT_AUTO_GENERATE_LENGTH)
    (max_tries : Nat := MAX_TRIES) (cd : Nat → Fin 62) : String :=
  _random_short cd length

/-- The outcomes `URLMap.save` can raise, by message:
`INVALID_SHORT_MSG`, `SHORT_EXISTS_MSG`, `GENERATE_FAIL_MSG`. -/
inductive SaveErr where
  | invalidFormat
  | alreadyExists
  | generationExhausted
deriving DecidableEq, Repr

/-- `URLMap._normalize_short`: `(value or "").strip()`. -/
def normalizeShort (value : Option String) : String := pyStrip (value.getD "")

/-- Iteration `i` of `URLMap._generate_and_commit` ends without a
successful commit: the draw is a reserved word (skipped by `continue`) or
the store snapshot at that instant already holds the drawn code. -/
def attemptFails (draws : Nat → String) (stores : Nat → Store)
    (reserved : List String) (i : Nat) : Bool :=
  reserved.contains (pyLower (draws i)) || isTaken (stores i) (draws i)

/-- The loop body of `URLMap._generate_and_commit`: `fuel` iterations
remain, `i` is the current loop index; `stores i` is the store snapshot
the `i`-th commit attempt runs against.  Returns the outcome paired with
the store after the operation. -/
def genAndCommitAux (draws : Nat → String) (stores : Nat → Store)
    (original : String) (reserved : List String) :
    Nat → Nat → Except SaveErr String × Store
  | 0, i => (Except.error SaveErr.generationExhausted, stores i)
  | fuel + 1, i =>
    if reserved.contains (pyLower (draws i)) then
      genAndCommitAux draws stores original reserved fuel (i + 1)
    else
      match tryCommit (stores i) (draws i) original with
      | some st => (Except.ok (draws i), st)
      | none => genAndCommitAux draws stores original reserved fuel (i + 1)

/-- `URLMap._generate_and_commit(generate_short, attempts, reserved_set)`:
`for _ in range(max(1, attempts))`, then raise `GENERATE_FAIL_MSG`. -/
def genAndCommit (draws : Nat → String) (stores : Nat → Store)
    (original : String) (reserved : List String) (attempts : Nat) :
    Except SaveErr String × Store :=
  genAndCommitAux draws stores original reserved (max 1 attempts) 0

/-- The loop indices of `URLMap._generate_and_commit` at which a persist
(commit) was actually attempted, mirroring the loop: a reserved draw hits
`continue` before `db.session.add`, a collision retries, a success stops
the loop. -/
def commitAttemptsAux (draws : Nat → String) (stores : Nat → Store)
    (reserved : List String) : Nat → Nat → List Nat
  | 0, _ => []
  | fuel + 1, i =>
    if reserved.contains (pyLower (draws i)) then
      commitAttemptsAux draws stores reserved fuel (i + 1)
    else if isTaken (stores i) (draws i) then
      i :: commitAttemptsAux draws stores reserved fuel (i + 1)
    else [i]

def commitAttempts (draws : Nat → String) (stores : Nat → Store)
    (reserved : List String) (attempts : Nat) : List Nat :=
  commitAttemptsAux draws stores reserved (max 1 attempts) 0

/-- `URLMap.save(generate_short, reserved_shorts, short_re, attempts)`.
`candidate` is `self.short` before the call, `original` is
`self.original`.  `storePre` is the store snapshot the explicit-path
pre-check (`_is_taken`) sees, `storeCommit` the snapshot the explicit
commit runs against; `stores` gives the snapshots for the generated-mode
loop.  The result pairs the outcome with the store after the operation. -/
def save (candidate : Option String) (original : String)
    (reserved : List String) (short_re : String → Bool)
    (storePre storeCommit : Store) (generate : Option (Nat → String))
    (stores : Nat → Store) (attempts : Nat) :
    Except SaveErr String × Store :=
  if normalizeShort candidate = "" then
    match generate with
    | none => (Except.error SaveErr.generationExhausted, storeCommit)
    | some draws => genAndCommit draws stores original reserved attempts
  else
    if !(short_re (normalizeShort candidate)) then
      (Except.error SaveErr.invalidFormat, storeCommit)
    else if reserved.contains (pyLower (normalizeShort candidate)) then
      (Except.error SaveErr.alreadyExists, storeCommit)
    else if isTaken storePre (normalizeShort candidate) then
      (Except.error SaveErr.alreadyExists, storeCommit)
    else
      match tryCommit storeCommit (normalizeShort candidate) original with
      | some st => (Except.ok (normalizeShort candidate), st)
      | none => (Except.error SaveErr.alreadyExists, storeCommit)

/-! ## views.py : resolution -/

/-- The outcome of `views.follow_short`. -/
inductive ResolveResult where
  | filesRoute
  | notFound
  | externalRedirect (url : String)
  | storagePath (path : String)
deriving DecidableEq, Repr

/-- `views.follow_short(short_id)`: the reserved `files` route is
intercepted case-insensitively before any lookup; an absent code 404s; an
`http(s)://` original redirects; any other original is handed to
`_serve_yadisk_path` (the storage bridge). -/
def follow_short (store : Store) (short_id : String) : ResolveResult :=
  if pyLower short_id = "files" then ResolveResult.filesRoute
  else
    match storeLookup store short_id with
    | none => ResolveResult.notFound
    | some original =>
      if pyStartswith original "http://" || pyStartswith original "https://" then
        ResolveResult.externalRedirect original
      else ResolveResult.storagePath original

/-- `views._filename_from_disk_path`, step 1:
`path.rsplit("/", 1)[-1]` — the segment after the last `/`
(the whole string when there is none). -/
def afterLastSlash (l : List Char) : List Char :=
  (l.reverse.takeWhile (fun c => c ≠ '/')).reverse

/-- `views._filename_from_disk_path`, step 2:
`name.split("_", 1)[1] if "_" in name else name`. -/
def afterFirstUnderscore (l : List Char) : List Char :=
  if l.contains '_' then (l.dropWhile (fun c => c ≠ '_')).drop 1 else l

def _filename_from_disk_path (path : String) : String :=
  String.mk (afterFirstUnderscore (afterLastSlash path.toList))

/-! ## yandex_cloud.py -/

/-- `yandex_cloud.UploadItem`. -/
structure UploadItem where
  filename : String
  disk_path : String
deriving DecidableEq, Repr

/-- The slice of `werkzeug.datastructures.FileStorage` the bridge reads. -/
structure FileStorage where
  filename : String
deriving DecidableEq, Repr

/-- `yandex_cloud.compose_path(base_dir, filename)`.  `sanitize` stands
for `werkzeug.utils.secure_filename` and `uid` for the fresh
`uuid.uuid4().hex` token. -/
def compose_path (base_dir : String) (filename : String)
    (sanitize : String → String) (uid : String) : String :=
  let safe_name := if sanitize filename = "" then "file" else sanitize filename
  base_dir ++ "/" ++ uid ++ "_" ++ safe_name

/-- One HTTP response from the Yandex Disk API, as the bridge reads it:
its status, the rendering of its body when `resp.json()` succeeds
(`none` when it raises), its raw text, and the body's `href` field. -/
structure HttpResponse where
  status : Nat
  jsonBody : Option String
  text : String
  href : Option String
deriving DecidableEq, Repr

/-- How the bridge can fail: `YandexDiskError(msg)`, or the bare
exception `resp.json()` raises on a sub-400 non-JSON body (which is not
a `YandexDiskError`). -/
inductive FetchErr where
  | storage (msg : String)
  | decodeFailure
deriving DecidableEq, Repr

/-- `try: detail = await resp.json() except: detail = await resp.text()`. -/
def errDetail (resp : HttpResponse) : String := resp.jsonBody.getD resp.text

/-- `yandex_cloud._get_upload_href`: raises `YandexDiskError` when
`resp.status >= 400`, otherwise decodes the body and returns its `href`,
raising `YandexDiskError` when the field is absent or falsy. -/
def get_upload_href (path : String) (resp : HttpResponse) :
    Except FetchErr String :=
  if 400 ≤ resp.status then
    Except.error (FetchErr.storage
      ("Failed to get upload href for " ++ path ++ ": "
        ++ toString resp.status ++ " " ++ errDetail resp))
  else
    match resp.jsonBody with
    | none => Except.error FetchErr.decodeFailure
    | some _ =>
      match resp.href with
      | some h =>
        if h = "" then
          Except.error (FetchErr.storage ("Upload href missing for " ++ path))
        else Except.ok h
      | none =>
        Except.error (FetchErr.storage ("Upload href missing for " ++ path))

/-- `yandex_cloud._get_download_href`: symmetric to the upload variant. -/
def get_download_href (path : String) (resp : HttpResponse) :
    Except FetchErr String :=
  if 400 ≤ resp.status then
    Except.error (FetchErr.storage
      ("Failed to get download href for " ++ path ++ ": "
        ++ toString resp.status ++ " " ++ errDetail resp))
  else
    match resp.jsonBody with
    | none => Except.error FetchErr.decodeFailure
    | some _ =>
      match resp.href with
      | some h =>
        if h = "" then
          Except.error (FetchErr.storage ("Download href missing for " ++ path))
        else Except.ok h
      | none =>
        Except.error (FetchErr.storage ("Download href missing for " ++ path))

/-- `yandex_cloud.upload_file(session, token, file, base_dir)`:
composes the path, fetches the upload href, then issues the byte
transfer; a transfer status other than 201/202 raises `YandexDiskError`.
`hrefResp` and `putResp` are the two HTTP responses involved. -/
def upload_file (file : FileStorage) (base_dir : String)
    (sanitize : String → String) (uid : String)
    (hrefResp putResp : HttpResponse) : Except FetchErr UploadItem :=
  match get_upload_href (compose_path base_dir file.filename sanitize uid)
      hrefResp with
  | Except.error e => Except.error e
  | Except.ok _ =>
    if putResp.status = 201 || putResp.status = 202 then
      Except.ok { filename := file.filename,
                  disk_path := compose_path base_dir file.filename sanitize uid }
    else
      Except.error (FetchErr.storage
        ("Failed to upload " ++ file.filename ++ ": "
          ++ toString putResp.status ++ " " ++ errDetail putResp))

/-- The tasks `upload_many` launches: one per file entry with a
non-empty filename (`for f in files if f and getattr(f, "filename", "")`). -/
def launchedTasks (files : List FileStorage) : List FileStorage :=
  files.filter (fun f => f.filename ≠ "")

/-- The successful results collected from a gather. -/
def successItems (results : List (Except String UploadItem)) :
    List UploadItem :=
  results.filterMap (fun r => match r with
    | Except.ok it => some it
    | Except.error _ => none)

/-- The failure messages collected from a gather. -/
def failureMsgs (results : List (Except String UploadItem)) : List String :=
  results.filterMap (fun r => match r with
    | Except.ok _ => none
    | Except.error e => some e)

/-- `yandex_cloud.upload_many(files, token, base_dir)`: filters the file
list, returns `[]` when no task is launched, gathers every task's outcome
(`return_exceptions=True`: no short-circuit, results in task order), and
raises the aggregate `YandexDiskError` joining the failure messages with
`"; "` exactly when `errors` is non-empty and `items` is empty.
`outcome` gives each launched task's result (success or the stringified
exception). -/
def upload_many (files : List FileStorage)
    (outcome : FileStorage → Except String UploadItem) :
    Except String (List UploadItem) :=
  if (launchedTasks files).isEmpty then Except.ok []
  else
    if !(failureMsgs ((launchedTasks files).map outcome)).isEmpty
        && (successItems ((launchedTasks files).map outcome)).isEmpty then
      Except.error (String.intercalate "; "
        (failureMsgs ((launchedTasks files).map outcome)))
    else Except.ok (successItems ((launchedTasks files).map outcome))

/-! ## Helper lemmas -/

theorem tryCommit_eq_none_iff (s : Store) (k v : String) :
    tryCommit s k v = none ↔ isTaken s k = true := by
  unfold tryCommit
  by_cases h : isTaken s k = true <;> simp [h]

theorem tryCommit_eq_some (s : Store) (k v : String) (st : Store)
    (h : tryCommit s k v = some st) :
    st = (k, v) :: s ∧ isTaken s k = false := by
  unfold tryCommit at h
  by_cases hT : isTaken s k = true
  · simp [hT] at h
  · simp [hT] at h ⊢
    exact h.symm

theorem attemptFails_of_reserved (draws : Nat → String) (stores : Nat → Store)
    (reserved : List String) (i : Nat)
    (hres : reserved.contains (pyLower (draws i)) = true) :
    attemptFails draws stores reserved i = true := by
  unfold attemptFails
  rw [hres, Bool.true_or]

theorem attemptFails_of_taken (draws : Nat → String) (stores : Nat → Store)
    (reserved : List String) (i : Nat)
    (hT : isTaken (stores i) (draws i) = true) :
    attemptFails draws stores reserved i = true := by
  unfold attemptFails
  rw [hT, Bool.or_true]

theorem genAndCommitAux_succ_reserved (draws : Nat → String)
    (stores : Nat → Store) (original : String) (reserved : List String)
    (fuel i : Nat) (hres : reserved.contains (pyLower (draws i)) = true) :
    genAndCommitAux draws stores original reserved (fuel + 1) i
      = genAndCommitAux draws stores original reserved fuel (i + 1) := by
  simp only [genAndCommitAux]
  rw [if_pos hres]

theorem genAndCommitAux_succ_commit (draws : Nat → String)
    (stores : Nat → Store) (original : String) (reserved : List String)
    (fuel i : Nat) (st : Store)
    (hres : reserved.contains (pyLower (draws i)) = false)
    (htc : tryCommit (stores i) (draws i) original = some st) :
    genAndCommitAux draws stores original reserved (fuel + 1) i
      = (Except.ok (draws i), st) := by
  simp only [genAndCommitAux]
  rw [if_neg (by rw [hres]; simp), htc]

theorem genAndCommitAux_succ_collision (draws : Nat → String)
    (stores : Nat → Store) (original : String) (reserved : List String)
    (fuel i : Nat) (hres : reserved.contains (pyLower (draws i)) = false)
    (htc : tryCommit (stores i) (draws i) original = none) :
    genAndCommitAux draws stores original reserved (fuel + 1) i
      = genAndCommitAux draws stores original reserved fuel (i + 1) := by
  simp only [genAndCommitAux]
  rw [if_neg (by rw [hres]; simp), htc]

theorem genAndCommitAux_error_iff (draws : Nat → String) (stores : Nat → Store)
    (original : String) (reserved : List String) (fuel i : Nat) :
    (genAndCommitAux draws stores original reserved fuel i).1
        = Except.error SaveErr.generationExhausted
      ↔ ∀ j, i ≤ j → j < i + fuel → attemptFails draws stores reserved j = true := by
  induction fuel generalizing i with
  | zero =>
    simp only [genAndCommitAux]
    constructor
    · intro _ j hij hj
      omega
    · intro _
      trivial
  | succ fuel ih =>
    by_cases hres : reserved.contains (pyLower (draws i)) = true
    · rw [genAndCommitAux_succ_reserved draws stores original reserved fuel i hres, ih]
      constructor
      · intro h j hij hj
        rcases Nat.eq_or_lt_of_le hij with rfl | hlt
        · exact attemptFails_of_reserved draws stores reserved _ hres
        · exact h j hlt (by omega)
      · intro h j hij hj
        exact h j (by omega) (by omega)
    · have hfalse : reserved.contains (pyLower (draws i)) = false := by
        simpa using hres
      cases htc : tryCommit (stores i) (draws i) original with
      | some st =>
        have hnt : isTaken (stores i) (draws i) = false :=
          (tryCommit_eq_some _ _ _ _ htc).2
        rw [genAndCommitAux_succ_commit draws stores original reserved fuel i st hfalse htc]
        constructor
        · intro h
          simp at h
        · intro h
          have hi := h i (le_refl i) (by omega)
          unfold attemptFails at hi
          rw [hfalse, hnt] at hi
          simp at hi
      | none =>
        have hT : isTaken (stores i) (draws i) = true :=
          (tryCommit_eq_none_iff _ _ _).mp htc
        rw [genAndCommitAux_succ_collision draws stores original reserved fuel i hfalse htc, ih]
        constructor
        · intro h j hij hj
          rcases Nat.eq_or_lt_of_le hij with rfl | hlt
          · exact attemptFails_of_taken draws stores reserved _ hT
          · exact h j hlt (by omega)
        · intro h j hij hj
          exact h j (by omega) (by omega)

theorem genAndCommitAux_ok_exists (draws : Nat → String) (stores : Nat → Store)
    (original : String) (reserved : List String) (fuel i : Nat)
    (h : ∃ j, i ≤ j ∧ j < i + fuel ∧ attemptFails draws stores reserved j = false) :
    ∃ j, i ≤ j ∧ j < i + fuel
      ∧ genAndCommitAux draws stores original reserved fuel i
          = (Except.ok (draws j), (draws j, original) :: stores j) := by
  induction fuel generalizing i with
  | zero =>
    obtain ⟨j, hij, hj, _⟩ := h
    omega
  | succ fuel ih =>
    by_cases hfi : attemptFails draws stores reserved i = true
    · have hrec : ∃ j, i + 1 ≤ j ∧ j < i + 1 + fuel
          ∧ attemptFails draws stores reserved j = false := by
        obtain ⟨j, hij, hj, hjf⟩ := h
        refine ⟨j, ?_, by omega, hjf⟩
        rcases Nat.eq_or_lt_of_le hij with rfl | hlt
        · rw [hfi] at hjf
          simp at hjf
        · omega
      obtain ⟨j, hij, hj, hrw⟩ := ih (i + 1) hrec
      refine ⟨j, by omega, by omega, ?_⟩
      rw [← hrw]
      unfold attemptFails at hfi
      by_cases hres : reserved.contains (pyLower (draws i)) = true
      · exact genAndCommitAux_succ_reserved draws stores original reserved fuel i hres
      · have hfalse : reserved.contains (pyLower (draws i)) = false := by
          simpa using hres
        rw [hfalse, Bool.false_or] at hfi
        exact genAndCommitAux_succ_collision draws stores original reserved fuel i hfalse
          ((tryCommit_eq_none_iff _ _ _).mpr hfi)
    · have hfi' : attemptFails draws stores reserved i = false := by
        simpa using hfi
      unfold attemptFails at hfi'
      have hres : reserved.contains (pyLower (draws i)) = false := by
        cases hc : reserved.contains (pyLower (draws i))
        · rfl
        · rw [hc, Bool.true_or] at hfi'
          exact absurd hfi' (by simp)
      rw [hres, Bool.false_or] at hfi'
      have htc : tryCommit (stores i) (draws i) original
          = some ((draws i, original) :: stores i) := by
        unfold tryCommit
        rw [hfi']
        simp
      exact ⟨i, le_refl i, by omega,
        genAndCommitAux_succ_commit draws stores original reserved fuel i _ hres htc⟩

theorem commitAttemptsAux_succ_reserved (draws : Nat → String)
    (stores : Nat → Store) (reserved : List String) (fuel i : Nat)
    (hres : reserved.contains (pyLower (draws i)) = true) :
    commitAttemptsAux draws stores reserved (fuel + 1) i
      = commitAttemptsAux draws stores reserved fuel (i + 1) := by
  simp only [commitAttemptsAux]
  rw [if_pos hres]

theorem commitAttemptsAux_succ_collision (draws : Nat → String)
    (stores : Nat → Store) (reserved : List String) (fuel i : Nat)
    (hres : reserved.contains (pyLower (draws i)) = false)
    (hT : isTaken (stores i) (draws i) = true) :
    commitAttemptsAux draws stores reserved (fuel + 1) i
      = i :: commitAttemptsAux draws stores reserved fuel (i + 1) := by
  simp only [commitAttemptsAux]
  rw [if_neg (by rw [hres]; simp), if_pos hT]

theorem commitAttemptsAux_succ_free (draws : Nat → String)
    (stores : Nat → Store) (reserved : List String) (fuel i : Nat)
    (hres : reserved.contains (pyLower (draws i)) = false)
    (hT : isTaken (stores i) (draws i) = false) :
    commitAttemptsAux draws stores reserved (fuel + 1) i = [i] := by
  simp only [commitAttemptsAux]
  rw [if_neg (by rw [hres]; simp), if_neg (by rw [hT]; simp)]

theorem commitAttemptsAux_all_fail (draws : Nat → String) (stores : Nat → Store)
    (reserved : List String) (fuel i : Nat)
    (h : ∀ j, i ≤ j → j < i + fuel → attemptFails draws stores reserved j = true) :
    commitAttemptsAux draws stores reserved fuel i
      = (List.range' i fuel).filter
          (fun j => !(reserved.contains (pyLower (draws j)))) := by
  induction fuel generalizing i with
  | zero =>
    simp [commitAttemptsAux]
  | succ fuel ih =>
    rw [List.range'_succ, List.filter_cons]
    by_cases hres : reserved.contains (pyLower (draws i)) = true
    · rw [commitAttemptsAux_succ_reserved draws stores reserved fuel i hres, hres]
      simp only [Bool.not_true, Bool.false_eq_true, if_false]
      exact ih (i + 1) (fun j hij hj => h j (by omega) (by omega))
    · have hfalse : reserved.contains (pyLower (draws i)) = false := by
        simpa using hres
      have hfi := h i (le_refl i) (by omega)
      unfold attemptFails at hfi
      rw [hfalse, Bool.false_or] at hfi
      rw [commitAttemptsAux_succ_collision draws stores reserved fuel i hfalse hfi, hfalse]
      simp only [Bool.not_false, if_true]
      rw [ih (i + 1) (fun j hij hj => h j (by omega) (by omega))]

theorem commitAttemptsAux_not_reserved (draws : Nat → String)
    (stores : Nat → Store) (reserved : List String) (fuel : Nat) :
    ∀ i j, j ∈ commitAttemptsAux draws stores reserved fuel i →
      reserved.contains (pyLower (draws j)) = false := by
  induction fuel with
  | zero =>
    intro i j h
    simp [commitAttemptsAux] at h
  | succ fuel ih =>
    intro i j h
    by_cases hres : reserved.contains (pyLower (draws i)) = true
    · rw [commitAttemptsAux_succ_reserved draws stores reserved fuel i hres] at h
      exact ih (i + 1) j h
    · have hfalse : reserved.contains (pyLower (draws i)) = false := by
        simpa using hres
      by_cases hT : isTaken (stores i) (draws i) = true
      · rw [commitAttemptsAux_succ_collision draws stores reserved fuel i hfalse hT] at h
        rcases List.mem_cons.mp h with rfl | h'
        · exact hfalse
        · exact ih (i + 1) j h'
      · rw [commitAttemptsAux_succ_free draws stores reserved fuel i hfalse
            (by simpa using hT)] at h
        rcases List.mem_singleton.mp h with rfl
        exact hfalse

/-! ## Claim theorems -/

/-- C1 (amended): for every caller-supplied candidate that is non-empty
after trimming, `URLMap.save` with its default validator
(`constants.SHORT_RE`) fails with InvalidFormat if and only if the
trimmed candidate does not fully match `^[A-Za-z0-9]{1,6}$`, and on that
failure the store is unchanged (no mapping entry is added or changed). -/
theorem save_explicit_invalidFormat_iff (candidate : Option String)
    (original : String) (reserved : List String) (storePre storeCommit : Store)
    (generate : Option (Nat → String)) (stores : Nat → Store) (attempts : Nat)
    (hne : normalizeShort candidate ≠ "") :
    ((save candidate original reserved SHORT_RE_fullmatch storePre storeCommit
          generate stores attempts).1 = Except.error SaveErr.invalidFormat
        ↔ SHORT_RE_fullmatch (normalizeShort candidate) = false)
      ∧ ((save candidate original reserved SHORT_RE_fullmatch storePre storeCommit
          generate stores attempts).1 = Except.error SaveErr.invalidFormat →
        (save candidate original reserved SHORT_RE_fullmatch storePre storeCommit
          generate stores attempts).2 = storeCommit) := by
  by_cases hre : SHORT_RE_fullmatch (normalizeShort candidate) = true
  · have hnot : (save candidate original reserved SHORT_RE_fullmatch storePre
        storeCommit generate stores attempts).1
          ≠ Except.error SaveErr.invalidFormat := by
      unfold save
      rw [if_neg hne, if_neg (by rw [hre]; simp)]
      by_cases hres : reserved.contains (pyLower (normalizeShort candidate)) = true
      · rw [if_pos hres]
        simp
      · rw [if_neg hres]
        by_cases htk : isTaken storePre (normalizeShort candidate) = true
        · rw [if_pos htk]
          simp
        · rw [if_neg htk]
          cases htc : tryCommit storeCommit (normalizeShort candidate) original with
          | some st => simp
          | none => simp
    refine ⟨⟨fun h => absurd h hnot, fun h => ?_⟩, fun h => absurd h hnot⟩
    rw [hre] at h
    exact absurd h (by simp)
  · have hfalse : SHORT_RE_fullmatch (normalizeShort candidate) = false := by
      simpa using hre
    have heq : save candidate original reserved SHORT_RE_fullmatch storePre
        storeCommit generate stores attempts
          = (Except.error SaveErr.invalidFormat, storeCommit) := by
      unfold save
      rw [if_neg hne, if_pos (by rw [hfalse]; simp)]
    rw [heq]
    exact ⟨⟨fun _ => hfalse, fun _ => rfl⟩, fun _ => rfl⟩

/-- C1 witness: the concrete candidate "ab3" (valid) and the theorem's
conclusions evaluated at it. -/
theorem save_explicit_invalidFormat_iff_witness :
    ((save (some "ab3") "https://e.com/x" ["files"] SHORT_RE_fullmatch []
          [] none (fun _ => []) 100).1 = Except.error SaveErr.invalidFormat
        ↔ SHORT_RE_fullmatch (normalizeShort (some "ab3")) = false)
      ∧ ((save (some "ab3") "https://e.com/x" ["files"] SHORT_RE_fullmatch []
          [] none (fun _ => []) 100).1 = Except.error SaveErr.invalidFormat →
        (save (some "ab3") "https://e.com/x" ["files"] SHORT_RE_fullmatch []
          [] none (fun _ => []) 100).2 = []) :=
  save_explicit_invalidFormat_iff (some "ab3") "https://e.com/x" ["files"]
    [] [] none (fun _ => []) 100 (by decide)

/-- C1 counterexample to the claim as stated: the candidate "abcdefg"
(seven alphanumeric characters) fully matches `^[A-Za-z0-9]{1,16}$`, yet
`URLMap.save` fails with InvalidFormat, because the validator it actually
uses (`constants.SHORT_RE`) is `^[A-Za-z0-9]{1,6}$`. -/
theorem save_sixteen_pattern_counterexample :
    normalizeShort (some "abcdefg") = "abcdefg"
      ∧ API_SHORT_RE_fullmatch "abcdefg" = true
      ∧ (save (some "abcdefg") "https://e.com/x" ["files"] SHORT_RE_fullmatch
          [] [] none (fun _ => []) 100).1 = Except.error SaveErr.invalidFormat :=
  ⟨rfl, by decide, rfl⟩

/-- C2: an explicit candidate that passes format and reserved-word
validation and whose pre-check saw the code free, but whose commit is
rejected by the store's uniqueness constraint (a concurrent winner
inserted it in between), fails with AlreadyExists; no auto-generated code
is substituted and the store — including the winner's entry — is
unchanged. -/
theorem save_explicit_race_loses (candidate : Option String)
    (original : String) (reserved : List String) (short_re : String → Bool)
    (storePre storeCommit : Store) (generate : Option (Nat → String))
    (stores : Nat → Store) (attempts : Nat)
    (hne : normalizeShort candidate ≠ "")
    (hre : short_re (normalizeShort candidate) = true)
    (hres : reserved.contains (pyLower (normalizeShort candidate)) = false)
    (hpre : isTaken storePre (normalizeShort candidate) = false)
    (hrace : isTaken storeCommit (normalizeShort candidate) = true) :
    (save candidate original reserved short_re storePre storeCommit generate
        stores attempts).1 = Except.error SaveErr.alreadyExists
      ∧ (save candidate original reserved short_re storePre storeCommit generate
        stores attempts).2 = storeCommit
      ∧ storeLookup (save candidate original reserved short_re storePre
          storeCommit generate stores attempts).2 (normalizeShort candidate)
        = storeLookup storeCommit (normalizeShort candidate) := by
  have htc : tryCommit storeCommit (normalizeShort candidate) original = none :=
    (tryCommit_eq_none_iff _ _ _).mpr hrace
  have heq : save candidate original reserved short_re storePre storeCommit
      generate stores attempts
        = (Except.error SaveErr.alreadyExists, storeCommit) := by
    unfold save
    rw [if_neg hne, if_neg (by rw [hre]; simp), if_neg (by rw [hres]; simp),
      if_neg (by rw [hpre]; simp), htc]
  rw [heq]
  exact ⟨rfl, rfl, rfl⟩

/-- C2 witness: candidate "abc" loses the race against a store that
already committed ("abc", "https://winner.example") at commit time. -/
theorem save_explicit_race_loses_witness :
    (save (some "abc") "https://mine.example" ["files"] SHORT_RE_fullmatch []
        [("abc", "https://winner.example")] none (fun _ => []) 100).1
      = Except.error SaveErr.alreadyExists
      ∧ (save (some "abc") "https://mine.example" ["files"] SHORT_RE_fullmatch []
        [("abc", "https://winner.example")] none (fun _ => []) 100).2
      = [("abc", "https://winner.example")]
      ∧ storeLookup (save (some "abc") "https://mine.example" ["files"]
          SHORT_RE_fullmatch [] [("abc", "https://winner.example")] none
          (fun _ => []) 100).2 (normalizeShort (some "abc"))
      = storeLookup [("abc", "https://winner.example")]
          (normalizeShort (some "abc")) :=
  save_explicit_race_loses (some "abc") "https://mine.example" ["files"]
    SHORT_RE_fullmatch [] [("abc", "https://winner.example")] none
    (fun _ => []) 100 (by decide) (by decide) (by decide) (by decide) (by decide)

theorem generate_unique_short_length (length max_tries : Nat)
    (cd : Nat → Fin 62) :
    (generate_unique_short length max_tries cd).length = length := by
  have htl : (generate_unique_short length max_tries cd).toList
      = (List.range length).map (fun i => ALPHABET.getD (cd i).val 'a') := rfl
  calc (generate_unique_short length max_tries cd).length
      = (generate_unique_short length max_tries cd).toList.length := rfl
    _ = length := by rw [htl, List.length_map, List.length_range]

theorem pyLower_length (s : String) : (pyLower s).length = s.length := by
  have htl : (pyLower s).toList = s.toList.map charLower := rfl
  calc (pyLower s).length = (pyLower s).toList.length := rfl
    _ = s.toList.length := by rw [htl, List.length_map]
    _ = s.length := rfl

/-- A six-character draw can never case-insensitively equal the
five-character reserved word `files`. -/
theorem reserved_shorts_miss (s : String) (h : s.length = 6) :
    RESERVED_SHORTS.contains (pyLower s) = false := by
  cases hc : RESERVED_SHORTS.contains (pyLower s)
  · rfl
  · exfalso
    have hmem : pyLower s ∈ RESERVED_SHORTS := by simpa using hc
    have heq : pyLower s = "files" := by simpa [RESERVED_SHORTS] using hmem
    have h5 : (pyLower s).length = 5 := by rw [heq]; rfl
    rw [pyLower_length, h] at h5
    omega

/-- C3: in generated-code mode (`save` with no candidate), with the
default generator (`generate_unique_short`, drawing 6-character codes)
and the default budget, the engine makes up to `MAX_TRIES = 100` attempts,
each drawing a fresh code and attempting to persist it; a
uniqueness-constraint rejection retries, and the run fails with
GenerationExhausted exactly when every attempt found its draw already
taken; when some attempt's draw is free, the first such attempt commits
and the call succeeds with that code. -/
theorem generated_mode_exhaustion_iff (cd : Nat → Nat → Fin 62)
    (stores : Nat → Store) (original : String)
    (storePre storeCommit : Store) :
    (MAX_TRIES = 100 ∧ SHORT_AUTO_GENERATE_LENGTH = 6)
      ∧ (∀ i, (generate_unique_short SHORT_AUTO_GENERATE_LENGTH MAX_TRIES
          (cd i)).length = SHORT_AUTO_GENERATE_LENGTH)
      ∧ ((save none original RESERVED_SHORTS SHORT_RE_fullmatch storePre
            storeCommit
            (some (fun i => generate_unique_short SHORT_AUTO_GENERATE_LENGTH
              MAX_TRIES (cd i)))
            stores MAX_TRIES).1 = Except.error SaveErr.generationExhausted
          ↔ ∀ i, i < MAX_TRIES → isTaken (stores i)
              (generate_unique_short SHORT_AUTO_GENERATE_LENGTH MAX_TRIES
                (cd i)) = true)
      ∧ ((∃ i, i < MAX_TRIES ∧ isTaken (stores i)
            (generate_unique_short SHORT_AUTO_GENERATE_LENGTH MAX_TRIES
              (cd i)) = false) →
          ∃ j, j < MAX_TRIES
            ∧ save none original RESERVED_SHORTS SHORT_RE_fullmatch storePre
                storeCommit
                (some (fun i => generate_unique_short SHORT_AUTO_GENERATE_LENGTH
                  MAX_TRIES (cd i)))
                stores MAX_TRIES
              = (Except.ok (generate_unique_short SHORT_AUTO_GENERATE_LENGTH
                  MAX_TRIES (cd j)),
                 (generate_unique_short SHORT_AUTO_GENERATE_LENGTH MAX_TRIES
                   (cd j), original) :: stores j)) := by
  have hsave : save none original RESERVED_SHORTS SHORT_RE_fullmatch storePre
      storeCommit
      (some (fun i => generate_unique_short SHORT_AUTO_GENERATE_LENGTH
        MAX_TRIES (cd i)))
      stores MAX_TRIES
        = genAndCommitAux
            (fun i => generate_unique_short SHORT_AUTO_GENERATE_LENGTH
              MAX_TRIES (cd i))
            stores original RESERVED_SHORTS MAX_TRIES 0 := by
    unfold save
    rw [if_pos (show normalizeShort none = "" from rfl)]
    unfold genAndCommit
    rw [show max 1 MAX_TRIES = MAX_TRIES from by decide]
  have hres : ∀ i, attemptFails
      (fun i => generate_unique_short SHORT_AUTO_GENERATE_LENGTH MAX_TRIES
        (cd i)) stores RESERVED_SHORTS i
        = isTaken (stores i)
            (generate_unique_short SHORT_AUTO_GENERATE_LENGTH MAX_TRIES
              (cd i)) := by
    intro i
    unfold attemptFails
    show (RESERVED_SHORTS.contains (pyLower (generate_unique_short
        SHORT_AUTO_GENERATE_LENGTH MAX_TRIES (cd i)))
      || isTaken (stores i) (generate_unique_short SHORT_AUTO_GENERATE_LENGTH
        MAX_TRIES (cd i)))
        = isTaken (stores i) (generate_unique_short SHORT_AUTO_GENERATE_LENGTH
            MAX_TRIES (cd i))
    rw [reserved_shorts_miss
        (generate_unique_short SHORT_AUTO_GENERATE_LENGTH MAX_TRIES (cd i))
        (generate_unique_short_length SHORT_AUTO_GENERATE_LENGTH MAX_TRIES
          (cd i)),
      Bool.false_or]
  refine ⟨⟨rfl, rfl⟩, fun i => generate_unique_short_length _ _ _, ?_, ?_⟩
  · rw [hsave, genAndCommitAux_error_iff]
    constructor
    · intro h i hi
      have hfa := h i (by omega) (by omega)
      rw [hres i] at hfa
      exact hfa
    · intro h j _ hj
      rw [hres j]
      exact h j (by omega)
  · rintro ⟨i, hi, hfree⟩
    have hex : ∃ j, 0 ≤ j ∧ j < 0 + MAX_TRIES
        ∧ attemptFails
            (fun i => generate_unique_short SHORT_AUTO_GENERATE_LENGTH
              MAX_TRIES (cd i)) stores RESERVED_SHORTS j = false := by
      refine ⟨i, by omega, by omega, ?_⟩
      rw [hres i]
      exact hfree
    obtain ⟨j, _, hj, hrw⟩ := genAndCommitAux_ok_exists
      (fun i => generate_unique_short SHORT_AUTO_GENERATE_LENGTH MAX_TRIES
        (cd i)) stores original RESERVED_SHORTS MAX_TRIES 0 hex
    refine ⟨j, by omega, ?_⟩
    rw [hsave]
    exact hrw

/-- C4 (amended): in `URLMap._generate_and_commit` a drawn code that
case-insensitively matches a reserved word is skipped — no persist
attempt is made for it — but the `continue` sits inside
`for _ in range(max(1, attempts))`, so the reserved draw still consumes
one of the attempts: in a run that exhausts its budget, the persist
attempts performed are exactly the non-reserved draws among the first
`max 1 attempts` draws, so reserved draws do reduce the number of
persist attempts available. -/
theorem reserved_draw_consumes_attempt (draws : Nat → String)
    (stores : Nat → Store) (original : String) (reserved : List String)
    (attempts : Nat)
    (hEx : (genAndCommit draws stores original reserved attempts).1
        = Except.error SaveErr.generationExhausted) :
    commitAttempts draws stores reserved attempts
        = (List.range (max 1 attempts)).filter
            (fun j => !(reserved.contains (pyLower (draws j))))
      ∧ ∀ j ∈ commitAttempts draws stores reserved attempts,
          reserved.contains (pyLower (draws j)) = false := by
  unfold genAndCommit at hEx
  have hall : ∀ j, 0 ≤ j → j < 0 + max 1 attempts →
      attemptFails draws stores reserved j = true :=
    (genAndCommitAux_error_iff draws stores original reserved
      (max 1 attempts) 0).mp hEx
  unfold commitAttempts
  constructor
  · rw [List.range_eq_range']
    exact commitAttemptsAux_all_fail draws stores reserved (max 1 attempts) 0 hall
  · intro j hj
    exact commitAttemptsAux_not_reserved draws stores reserved
      (max 1 attempts) 0 j hj

/-- C4 witness: a two-attempt run whose first draw is the reserved word
and whose second draw collides; the run exhausts having made exactly one
persist attempt (at index 1). -/
theorem reserved_draw_consumes_attempt_witness :
    commitAttempts (fun i => if i = 0 then "files" else "zz")
        (fun _ => ([("zz", "https://t.example")] : Store)) ["files"] 2
        = (List.range (max 1 2)).filter
            (fun j => !((["files"] : List String).contains
              (pyLower ((fun i => if i = 0 then "files" else "zz") j))))
      ∧ ∀ j ∈ commitAttempts (fun i => if i = 0 then "files" else "zz")
          (fun _ => ([("zz", "https://t.example")] : Store)) ["files"] 2,
          (["files"] : List String).contains
            (pyLower ((fun i => if i = 0 then "files" else "zz") j)) = false :=
  reserved_draw_consumes_attempt (fun i => if i = 0 then "files" else "zz")
    (fun _ => ([("zz", "https://t.example")] : Store)) "https://o.example"
    ["files"] 2 rfl

/-- C4 counterexample to the claim as stated: with a budget of one
attempt and a reserved first draw, the loop exhausts and fails without a
single persist attempt, even though the very next draw was non-reserved
and committable — the reserved draw consumed the only try instead of
being skipped "without consuming a try". -/
theorem reserved_draw_skip_counterexample :
    (genAndCommit (fun i => if i = 0 then "files" else "abc123")
        (fun _ => ([] : Store)) "https://t.example" ["files"] 1).1
      = Except.error SaveErr.generationExhausted
      ∧ commitAttempts (fun i => if i = 0 then "files" else "abc123")
          (fun _ => ([] : Store)) ["files"] 1 = []
      ∧ (["files"] : List String).contains (pyLower "files") = true
      ∧ tryCommit ([] : Store) "abc123" "https://t.example"
        = some [("abc123", "https://t.example")] :=
  ⟨rfl, rfl, rfl, rfl⟩

/-- C10: `URLMap.generate_unique_short` does no uniqueness or
reserved-word checking and ignores `max_tries`: it is exactly one
`_random_short` draw of `length` characters; and `_random_short` ignores
its `alphabet` parameter, always drawing from the 62-character
module-level `ALPHABET` (A–Z, a–z, 0–9). -/
theorem generate_unique_short_single_draw (cd : Nat → Fin 62)
    (length t1 t2 : Nat) (alphabet1 alphabet2 : List Char) :
    _random_short cd length alphabet1 = _random_short cd length alphabet2
      ∧ generate_unique_short length t1 cd = generate_unique_short length t2 cd
      ∧ generate_unique_short length t1 cd = _random_short cd length ALPHABET
      ∧ (generate_unique_short length t1 cd).length = length
      ∧ (∀ c ∈ (generate_unique_short length t1 cd).toList, c ∈ ALPHABET)
      ∧ ALPHABET.length = 62 := by
  refine ⟨rfl, rfl, rfl, generate_unique_short_length _ _ _, ?_, by decide⟩
  intro c hc
  have hc' : c ∈ (List.range length).map
      (fun i => ALPHABET.getD (cd i).val 'a') := hc
  obtain ⟨i, _, rfl⟩ := List.mem_map.mp hc'
  have hlt : (cd i).val < ALPHABET.length := by
    have h62 : ALPHABET.length = 62 := by decide
    rw [h62]
    exact (cd i).isLt
  rw [List.getD_eq_getElem ALPHABET 'a' hlt]
  exact List.getElem_mem hlt

/-- C5: `views.follow_short` classifies every request: the reserved
`files` keyword is intercepted case-insensitively before any lookup and
routed to the ingestion workflow; an unknown code 404s; a mapped
original starting with `http://` or `https://` is an external redirect
to that URL; any other original is a remote-storage path handed to the
storage bridge. -/
theorem follow_short_classification (store : Store) (code : String) :
    (pyLower code = "files" →
      follow_short store code = ResolveResult.filesRoute)
      ∧ (pyLower code ≠ "files" → storeLookup store code = none →
        follow_short store code = ResolveResult.notFound)
      ∧ (∀ original, pyLower code ≠ "files" →
        storeLookup store code = some original →
        (pyStartswith original "http://"
          || pyStartswith original "https://") = true →
        follow_short store code = ResolveResult.externalRedirect original)
      ∧ (∀ original, pyLower code ≠ "files" →
        storeLookup store code = some original →
        (pyStartswith original "http://"
          || pyStartswith original "https://") = false →
        follow_short store code = ResolveResult.storagePath original) := by
  refine ⟨?_, ?_, ?_, ?_⟩
  · intro h
    unfold follow_short
    rw [if_pos h]
  · intro h hl
    unfold follow_short
    rw [if_neg h, hl]
  · intro original h hl hs
    unfold follow_short
    rw [if_neg h, hl]
    show (if (pyStartswith original "http://"
        || pyStartswith original "https://") = true
      then ResolveResult.externalRedirect original
      else ResolveResult.storagePath original)
        = ResolveResult.externalRedirect original
    rw [if_pos hs]
  · intro original h hl hs
    unfold follow_short
    rw [if_neg h, hl]
    show (if (pyStartswith original "http://"
        || pyStartswith original "https://") = true
      then ResolveResult.externalRedirect original
      else ResolveResult.storagePath original)
        = ResolveResult.storagePath original
    rw [if_neg (by rw [hs]; simp)]

theorem successItems_eq_nil_iff (results : List (Except String UploadItem)) :
    successItems results = [] ↔ ∀ r ∈ results, r.isOk = false := by
  unfold successItems
  rw [List.filterMap_eq_nil_iff]
  constructor
  · intro h r hr
    have := h r hr
    cases r with
    | ok it => simp at this
    | error e => rfl
  · intro h r hr
    have := h r hr
    cases r with
    | ok it => simp [Except.isOk, Except.toBool] at this
    | error e => rfl

theorem failureMsgs_ne_nil (results : List (Except String UploadItem))
    (hne : results ≠ []) (hall : ∀ r ∈ results, r.isOk = false) :
    failureMsgs results ≠ [] := by
  cases results with
  | nil => exact absurd rfl hne
  | cons r rs =>
    have hr := hall r (by simp)
    cases r with
    | ok it => simp [Except.isOk, Except.toBool] at hr
    | error e =>
      unfold failureMsgs
      rw [List.filterMap_cons]
      exact List.cons_ne_nil e _

theorem upload_many_of_no_tasks (files : List FileStorage)
    (outcome : FileStorage → Except String UploadItem)
    (h : launchedTasks files = []) :
    upload_many files outcome = Except.ok [] := by
  unfold upload_many
  rw [h]
  simp

theorem upload_many_of_some_success (files : List FileStorage)
    (outcome : FileStorage → Except String UploadItem)
    (h : successItems ((launchedTasks files).map outcome) ≠ []) :
    upload_many files outcome
      = Except.ok (successItems ((launchedTasks files).map outcome)) := by
  have htasks : launchedTasks files ≠ [] := by
    intro hx
    apply h
    rw [hx]
    rfl
  unfold upload_many
  rw [if_neg (by rw [List.isEmpty_iff]; exact htasks)]
  rw [if_neg ?_]
  intro hc
  rw [Bool.and_eq_true] at hc
  exact h (List.isEmpty_iff.mp hc.2)

theorem upload_many_of_all_failed (files : List FileStorage)
    (outcome : FileStorage → Except String UploadItem)
    (htasks : launchedTasks files ≠ [])
    (h : successItems ((launchedTasks files).map outcome) = []) :
    upload_many files outcome
      = Except.error (String.intercalate "; "
          (failureMsgs ((launchedTasks files).map outcome))) := by
  have hmapne : (launchedTasks files).map outcome ≠ [] := by
    intro hx
    exact htasks (List.map_eq_nil_iff.mp hx)
  have hfail : failureMsgs ((launchedTasks files).map outcome) ≠ [] :=
    failureMsgs_ne_nil _ hmapne ((successItems_eq_nil_iff _).mp h)
  unfold upload_many
  rw [if_neg (by rw [List.isEmpty_iff]; exact htasks)]
  rw [if_pos ?_]
  rw [Bool.and_eq_true]
  constructor
  · cases hfm : failureMsgs ((launchedTasks files).map outcome) with
    | nil => exact absurd hfm hfail
    | cons a l => rfl
  · rw [List.isEmpty_iff]
    exact h

theorem upload_many_error_inversion (files : List FileStorage)
    (outcome : FileStorage → Except String UploadItem) (msg : String)
    (h : upload_many files outcome = Except.error msg) :
    launchedTasks files ≠ []
      ∧ successItems ((launchedTasks files).map outcome) = []
      ∧ msg = String.intercalate "; "
          (failureMsgs ((launchedTasks files).map outcome)) := by
  by_cases htasks : launchedTasks files = []
  · rw [upload_many_of_no_tasks files outcome htasks] at h
    exact absurd h (by simp)
  · by_cases hsuc : successItems ((launchedTasks files).map outcome) = []
    · rw [upload_many_of_all_failed files outcome htasks hsuc] at h
      refine ⟨htasks, hsuc, ?_⟩
      have := Except.error.inj h
      exact this.symm
    · rw [upload_many_of_some_success files outcome hsuc] at h
      exact absurd h (by simp)

/-- C6: every launched upload task's outcome is collected (no
short-circuit); if at least one upload succeeded, `upload_many` returns
exactly the successes (in task order) and raises nothing; and it fails —
with an aggregate `YandexDiskError` whose message joins every
individual failure with "; " — exactly when tasks were launched and
every one of them failed. -/
theorem upload_many_aggregation_policy (files : List FileStorage)
    (outcome : FileStorage → Except String UploadItem) :
    (successItems ((launchedTasks files).map outcome) ≠ [] →
      upload_many files outcome
        = Except.ok (successItems ((launchedTasks files).map outcome)))
      ∧ (launchedTasks files ≠ [] →
        (∀ r ∈ (launchedTasks files).map outcome, r.isOk = false) →
        upload_many files outcome
          = Except.error (String.intercalate "; "
              (failureMsgs ((launchedTasks files).map outcome))))
      ∧ (∀ msg, upload_many files outcome = Except.error msg →
        launchedTasks files ≠ []
          ∧ (∀ r ∈ (launchedTasks files).map outcome, r.isOk = false)
          ∧ msg = String.intercalate "; "
              (failureMsgs ((launchedTasks files).map outcome))) := by
  refine ⟨upload_many_of_some_success files outcome, ?_, ?_⟩
  · intro htasks hall
    exact upload_many_of_all_failed files outcome htasks
      ((successItems_eq_nil_iff _).mpr hall)
  · intro msg h
    obtain ⟨h1, h2, h3⟩ := upload_many_error_inversion files outcome msg h
    exact ⟨h1, (successItems_eq_nil_iff _).mp h2, h3⟩

/-- C9: when no entry of the file list has a non-empty filename
(including the empty list), no task is launched and `upload_many`
returns the empty list without error; the all-failed aggregate error is
raised only when at least one task was launched and every launched task
failed. -/
theorem upload_many_no_launched_tasks (files : List FileStorage)
    (outcome : FileStorage → Except String UploadItem) :
    ((∀ f ∈ files, f.filename = "") →
      upload_many files outcome = Except.ok [])
      ∧ (∀ msg, upload_many files outcome = Except.error msg →
        launchedTasks files ≠ []
          ∧ ∀ r ∈ (launchedTasks files).map outcome, r.isOk = false) := by
  constructor
  · intro h
    apply upload_many_of_no_tasks
    unfold launchedTasks
    rw [List.filter_eq_nil_iff]
    intro f hf
    simp [h f hf]
  · intro msg h
    obtain ⟨h1, h2, _⟩ := upload_many_error_inversion files outcome msg h
    exact ⟨h1, (successItems_eq_nil_iff _).mp h2⟩

/-- The lowercase hexadecimal digits: the characters `uuid.uuid4().hex`
can produce. -/
def HEX_DIGITS : List Char := "0123456789abcdef".toList

theorem takeWhile_append_of_forall {α : Type} (p : α → Bool) (a : List α)
    (x : α) (b : List α) (ha : ∀ c ∈ a, p c = true) (hx : p x = false) :
    (a ++ x :: b).takeWhile p = a := by
  induction a with
  | nil =>
    rw [List.nil_append, List.takeWhile_cons, hx]
    simp
  | cons hd tl ih =>
    have hhd : p hd = true := ha hd (by simp)
    rw [List.cons_append, List.takeWhile_cons, hhd]
    simp only [if_true]
    rw [ih (fun c hc => ha c (by simp [hc]))]

theorem dropWhile_append_of_forall {α : Type} (p : α → Bool) (a : List α)
    (x : α) (b : List α) (ha : ∀ c ∈ a, p c = true) (hx : p x = false) :
    (a ++ x :: b).dropWhile p = x :: b := by
  induction a with
  | nil =>
    rw [List.nil_append, List.dropWhile_cons, hx]
    simp
  | cons hd tl ih =>
    have hhd : p hd = true := ha hd (by simp)
    rw [List.cons_append, List.dropWhile_cons, hhd]
    simp only [if_true]
    rw [ih (fun c hc => ha c (by simp [hc]))]

theorem afterLastSlash_append (x y : List Char) (hy : ('/' : Char) ∉ y) :
    afterLastSlash (x ++ '/' :: y) = y := by
  unfold afterLastSlash
  rw [List.reverse_append, List.reverse_cons, List.append_assoc,
    List.singleton_append]
  rw [takeWhile_append_of_forall _ y.reverse '/' x.reverse
    (fun c hc => by
      simp only [List.mem_reverse] at hc
      simp only [ne_eq, decide_eq_true_eq]
      intro h
      exact hy (h ▸ hc))
    (by simp)]
  exact List.reverse_reverse y

theorem afterFirstUnderscore_append (u s : List Char)
    (hu : ('_' : Char) ∉ u) :
    afterFirstUnderscore (u ++ '_' :: s) = s := by
  unfold afterFirstUnderscore
  have hc : (u ++ '_' :: s).contains '_' = true := by simp
  rw [if_pos hc]
  rw [dropWhile_append_of_forall _ u '_' s
    (fun c hcm => by
      simp only [ne_eq, decide_eq_true_eq]
      intro h
      exact hu (h ▸ hcm))
    (by simp)]
  simp

theorem compose_path_toList (base_dir filename : String)
    (sanitize : String → String) (uid : String) :
    (compose_path base_dir filename sanitize uid).toList
      = base_dir.toList ++ '/' :: (uid.toList ++ '_' ::
          (if sanitize filename = "" then "file"
            else sanitize filename).toList) := by
  unfold compose_path
  show (base_dir ++ "/" ++ uid ++ "_"
      ++ (if sanitize filename = "" then "file" else sanitize filename)).data
    = base_dir.data ++ '/' :: (uid.data ++ '_' ::
        (if sanitize filename = "" then "file" else sanitize filename).data)
  simp only [String.data_append, List.append_assoc]
  rfl

/-- C7: `compose_path` returns `baseDir ++ "/" ++ uid ++ "_" ++ s`, where
`uid` is the fresh 32-character lowercase-hexadecimal token and `s` is
the sanitized filename (the placeholder "file" when sanitization yields
the empty string); and `_filename_from_disk_path` — the last `/`-segment
stripped through its first `_`, or taken as-is without a `_` — recovers
exactly `s` from that path. -/
theorem compose_path_roundtrip (base_dir filename : String)
    (sanitize : String → String) (uid : String)
    (hlen : uid.length = 32)
    (hhex : ∀ c ∈ uid.toList, c ∈ HEX_DIGITS)
    (hsan : ('/' : Char) ∉ (sanitize filename).toList) :
    compose_path base_dir filename sanitize uid
        = base_dir ++ "/" ++ uid ++ "_"
          ++ (if sanitize filename = "" then "file" else sanitize filename)
      ∧ _filename_from_disk_path (compose_path base_dir filename sanitize uid)
        = (if sanitize filename = "" then "file" else sanitize filename) := by
  refine ⟨rfl, ?_⟩
  have hslash_uid : ('/' : Char) ∉ uid.toList := by
    intro hmem
    have := hhex '/' hmem
    simp [HEX_DIGITS] at this
  have hunder_uid : ('_' : Char) ∉ uid.toList := by
    intro hmem
    have := hhex '_' hmem
    simp [HEX_DIGITS] at this
  have hslash_safe : ('/' : Char)
      ∉ (if sanitize filename = "" then "file"
          else sanitize filename).toList := by
    by_cases he : sanitize filename = ""
    · rw [if_pos he]
      decide
    · rw [if_neg he]
      exact hsan
  have hy : ('/' : Char) ∉ uid.toList ++ '_' ::
      (if sanitize filename = "" then "file"
        else sanitize filename).toList := by
    intro hmem
    rcases List.mem_append.mp hmem with h1 | h2
    · exact hslash_uid h1
    · rcases List.mem_cons.mp h2 with h3 | h4
      · exact absurd h3 (by decide)
      · exact hslash_safe h4
  unfold _filename_from_disk_path
  rw [compose_path_toList, afterLastSlash_append _ _ hy,
    afterFirstUnderscore_append _ _ hunder_uid]
  rfl

/-- C7 witness: a concrete upload (`My Report.PDF` sanitized to
`My_Report.PDF`) with a concrete 32-character hex token round-trips. -/
theorem compose_path_roundtrip_witness :
    compose_path "app:/yacut" "My Report.PDF" (fun _ => "My_Report.PDF")
        "0123456789abcdef0123456789abcdef"
        = "app:/yacut" ++ "/" ++ "0123456789abcdef0123456789abcdef" ++ "_"
          ++ (if (fun (_ : String) => "My_Report.PDF") "My Report.PDF" = ""
              then "file" else "My_Report.PDF")
      ∧ _filename_from_disk_path (compose_path "app:/yacut" "My Report.PDF"
          (fun _ => "My_Report.PDF") "0123456789abcdef0123456789abcdef")
        = (if (fun (_ : String) => "My_Report.PDF") "My Report.PDF" = ""
            then "file" else "My_Report.PDF") :=
  compose_path_roundtrip "app:/yacut" "My Report.PDF"
    (fun _ => "My_Report.PDF") "0123456789abcdef0123456789abcdef"
    (by decide) (by decide) (by decide)

/-- C8 (amended): the href fetchers fail with `YandexDiskError` carrying
the path, status and decoded-or-raw body for every response with status
at least 400 (the code's check is `resp.status >= 400`, so sub-400
non-2xx statuses such as redirects pass it); `upload_file` succeeds with
an `UploadItem` exactly when the href fetch succeeds and the byte
transfer returns 201 or 202, and any other transfer status is a
`YandexDiskError`. -/
theorem storage_error_status_policy (path : String) (resp : HttpResponse)
    (file : FileStorage) (base_dir : String) (sanitize : String → String)
    (uid : String) (hrefResp putResp : HttpResponse) :
    (400 ≤ resp.status →
      get_upload_href path resp = Except.error (FetchErr.storage
          ("Failed to get upload href for " ++ path ++ ": "
            ++ toString resp.status ++ " " ++ errDetail resp))
        ∧ get_download_href path resp = Except.error (FetchErr.storage
          ("Failed to get download href for " ++ path ++ ": "
            ++ toString resp.status ++ " " ++ errDetail resp)))
      ∧ ((∃ it, upload_file file base_dir sanitize uid hrefResp putResp
            = Except.ok it)
          ↔ ((∃ h, get_upload_href
                (compose_path base_dir file.filename sanitize uid) hrefResp
                  = Except.ok h)
            ∧ (putResp.status = 201 ∨ putResp.status = 202)))
      ∧ (∀ it, upload_file file base_dir sanitize uid hrefResp putResp
            = Except.ok it →
          it = { filename := file.filename,
                 disk_path := compose_path base_dir file.filename sanitize uid })
      ∧ ((∃ h, get_upload_href
            (compose_path base_dir file.filename sanitize uid) hrefResp
              = Except.ok h) →
          ¬(putResp.status = 201 ∨ putResp.status = 202) →
          upload_file file base_dir sanitize uid hrefResp putResp
            = Except.error (FetchErr.storage
                ("Failed to upload " ++ file.filename ++ ": "
                  ++ toString putResp.status ++ " " ++ errDetail putResp))) := by
  refine ⟨?_, ?_, ?_, ?_⟩
  · intro h
    constructor
    · unfold get_upload_href
      rw [if_pos h]
    · unfold get_download_href
      rw [if_pos h]
  · constructor
    · rintro ⟨it, hit⟩
      unfold upload_file at hit
      cases hh : get_upload_href (compose_path base_dir file.filename sanitize
          uid) hrefResp with
      | error e =>
        rw [hh] at hit
        simp at hit
      | ok href =>
        rw [hh] at hit
        by_cases hp : putResp.status = 201 ∨ putResp.status = 202
        · exact ⟨⟨href, rfl⟩, hp⟩
        · rw [if_neg (by
            intro hb
            rcases Bool.or_eq_true_iff.mp hb with h1 | h1
            · exact hp (Or.inl (by simpa using h1))
            · exact hp (Or.inr (by simpa using h1)))] at hit
          simp at hit
    · rintro ⟨⟨href, hh⟩, hp⟩
      unfold upload_file
      rw [hh]
      rw [if_pos (by rcases hp with h1 | h1 <;> simp [h1])]
      exact ⟨_, rfl⟩
  · intro it hit
    unfold upload_file at hit
    cases hh : get_upload_href (compose_path base_dir file.filename sanitize
        uid) hrefResp with
    | error e =>
      rw [hh] at hit
      simp at hit
    | ok href =>
      rw [hh] at hit
      by_cases hp : putResp.status = 201 ∨ putResp.status = 202
      · rw [if_pos (by rcases hp with h1 | h1 <;> simp [h1])] at hit
        exact (Except.ok.inj hit).symm
      · rw [if_neg (by
          intro hb
          rcases Bool.or_eq_true_iff.mp hb with h1 | h1
          · exact hp (Or.inl (by simpa using h1))
          · exact hp (Or.inr (by simpa using h1)))] at hit
        simp at hit
  · rintro ⟨href, hh⟩ hp
    unfold upload_file
    rw [hh]
    rw [if_neg (by
      intro hb
      rcases Bool.or_eq_true_iff.mp hb with h1 | h1
      · exact hp (Or.inl (by simpa using h1))
      · exact hp (Or.inr (by simpa using h1)))]

/-- C8 counterexample to the claim as stated: a 302 response is not 2xx,
yet `_get_upload_href` does not fail — its status check is
`resp.status >= 400` — and instead returns the body's href. -/
theorem href_redirect_status_counterexample :
    ¬(200 ≤ 302 ∧ 302 < 300)
      ∧ get_upload_href "disk:/p"
          { status := 302, jsonBody := some "{}", text := "",
            href := some "https://u.example" }
        = Except.ok "https://u.example"
      ∧ get_download_href "disk:/p"
          { status := 302, jsonBody := some "{}", text := "",
            href := some "https://u.example" }
        = Except.ok "https://u.example" :=
  ⟨by omega, rfl, rfl⟩

end Yacut
